import Mathlib

/-! rtc utilities (include/rtc/utils.hpp): callback slots, weak_bind, scope_guard, CheshireCat

A shallow embedding of the helper classes of `rtc/utils.hpp`.

* Objects live at addresses; a world maps every address to the object stored there, so that
  two references may or may not alias.
* A `std::function` is `Option` of the identity of its target; `none` is the empty function.
* User callables are code the header never sees.  What a callable does when it runs is given by
  an environment: a list of actions on callback slots (assign, invoke) possibly ended by a
  thrown exception.  The recursive mutex lets the running thread re-enter a slot, so such
  actions are legal while the slot is calling the callable.  Every call of a callable is
  recorded in the trace of the world.
* The mutexes are recursive and every function here runs on one thread, so each `lock_guard`
  is acquired at once and released on exit; lock state is not part of the world.
-/

namespace rtc

/-- Identity of the target of a `std::function`. -/
abbrev FnId := Nat

/-- Address of an object. -/
abbrev Addr := Nat

/-- Dynamic type of a slot object: `synchronized_callback` itself or the final subclass
`synchronized_stored_callback`; it selects the override run by a virtual call. -/
inductive SlotKind where
  | plain
  | replaying
  deriving DecidableEq, Repr

/-- Data members of a slot: `callback` (utils.hpp:164) and, used by the subclass only,
`stored` (utils.hpp:202). -/
structure Slot (α : Type) where
  kind : SlotKind
  callback : Option FnId
  stored : Option α
  deriving DecidableEq, Repr

/-- The slots in memory and the trace of calls made to user callables, oldest first. -/
structure World (α : Type) where
  slots : Addr → Slot α
  trace : List (FnId × α)

/-- Outcome of running code that may call user callables: `none` when the fuel bounding
re-entrant calls ran out, otherwise the world reached together with the returned value or the
exception in flight. -/
abbrev Res (α ε ρ : Type) := Option (Except ε ρ × World α)

/-- How a user callable is run: target, arguments, world. -/
abbrev Runner (α ε : Type) := FnId → α → World α → Res α ε Unit

/-- One step of the body of a user callable. -/
inductive Act (α ε : Type) where
  | assign (slot : Addr) (func : Option FnId)
  | invoke (slot : Addr) (args : α)
  | raise (e : ε)
  deriving Repr

/-- Bodies of the user callables. -/
abbrev Env (α ε : Type) := FnId → α → List (Act α ε)

/-- Arguments of the calls of `f` in a trace, in order. -/
def callsOf {α : Type} (t : List (FnId × α)) (f : FnId) : List α :=
  (t.filter (fun e => e.1 == f)).map Prod.snd

/-- Entering a user callable: the call is appended to the trace. -/
def World.record {α : Type} (w : World α) (f : FnId) (a : α) : World α :=
  { w with trace := w.trace ++ [(f, a)] }

/-- Store to one slot. -/
def World.write {α : Type} (w : World α) (p : Addr) (s : Slot α) : World α :=
  { w with slots := Function.update w.slots p s }

/-- `synchronized_callback::set` (utils.hpp:155): `callback = std::move(func)`. -/
def synchronized_callback.set {α : Type} (this : Addr) (func : Option FnId) (w : World α) :
    World α :=
  w.write this { w.slots this with callback := func }

/-- `synchronized_callback::call` (utils.hpp:156-162). -/
def synchronized_callback.call {α ε : Type} (run : Runner α ε) (this : Addr) (args : α)
    (w : World α) : Res α ε Bool :=
  match (w.slots this).callback with
  | none => some (.ok false, w)
  | some f =>
    match run f args w with
    | none => none
    | some (.error e, w1) => some (.error e, w1)
    | some (.ok _, w1) => some (.ok true, w1)

/-- `synchronized_stored_callback::call_func` (utils.hpp:190-193): `func` is called with the
elements of `*stored`, read when the call is made.  Reading an empty `stored` is undefined in
the source; `set` reaches this only with an entry stored, and the model then calls nothing. -/
def synchronized_stored_callback.call_func {α ε : Type} (run : Runner α ε) (this : Addr)
    (func : FnId) (w : World α) : Res α ε Unit :=
  match (w.slots this).stored with
  | none => some (.ok (), w)
  | some a => run func a w

/-- `synchronized_stored_callback::func_dispatch` (utils.hpp:186-188). -/
def synchronized_stored_callback.func_dispatch {α ε : Type} (run : Runner α ε) (this : Addr)
    (func : FnId) (w : World α) : Res α ε Unit :=
  synchronized_stored_callback.call_func run this func w

/-- `synchronized_stored_callback::set` (utils.hpp:178-184): base `set`, then, when `func` is
non-empty and an entry is stored, dispatch of the entry to `func` and `stored.reset()`.  An
exception leaving `func` skips the reset. -/
def synchronized_stored_callback.set {α ε : Type} (run : Runner α ε) (this : Addr)
    (func : Option FnId) (w : World α) : Res α ε Unit :=
  let w1 := synchronized_callback.set this func w
  match func with
  | none => some (.ok (), w1)
  | some f =>
    if (w1.slots this).stored.isSome then
      match synchronized_stored_callback.func_dispatch run this f w1 with
      | none => none
      | some (.error e, w2) => some (.error e, w2)
      | some (.ok _, w2) => some (.ok (), w2.write this { w2.slots this with stored := none })
    else some (.ok (), w1)

/-- `synchronized_stored_callback::call` (utils.hpp:195-200): base `call`; when it reports
false the arguments are emplaced into `stored`; the result is always true. -/
def synchronized_stored_callback.call {α ε : Type} (run : Runner α ε) (this : Addr) (args : α)
    (w : World α) : Res α ε Bool :=
  match synchronized_callback.call run this args w with
  | none => none
  | some (.error e, w1) => some (.error e, w1)
  | some (.ok true, w1) => some (.ok true, w1)
  | some (.ok false, w1) =>
    some (.ok true, w1.write this { w1.slots this with stored := some args })

/-- Virtual call of `set`: the override of the dynamic type of `*this`. -/
def synchronized_callback.virtual_set {α ε : Type} (run : Runner α ε) (this : Addr)
    (func : Option FnId) (w : World α) : Res α ε Unit :=
  match (w.slots this).kind with
  | .plain => some (.ok (), synchronized_callback.set this func w)
  | .replaying => synchronized_stored_callback.set run this func w

/-- Virtual call of `call`: the override of the dynamic type of `*this`. -/
def synchronized_callback.virtual_call {α ε : Type} (run : Runner α ε) (this : Addr) (args : α)
    (w : World α) : Res α ε Bool :=
  match (w.slots this).kind with
  | .plain => synchronized_callback.call run this args w
  | .replaying => synchronized_stored_callback.call run this args w

/-- `operator=(std::function<void(Args...)>)` (utils.hpp:138-142): under the lock,
`set(std::move(func))`. -/
def synchronized_callback.assign {α ε : Type} (run : Runner α ε) (this : Addr)
    (func : Option FnId) (w : World α) : Res α ε Unit :=
  synchronized_callback.virtual_set run this func w

/-- `operator()(Args...)` (utils.hpp:144-147): under the lock, `call(std::move(args)...)`. -/
def synchronized_callback.invoke {α ε : Type} (run : Runner α ε) (this : Addr) (args : α)
    (w : World α) : Res α ε Bool :=
  synchronized_callback.virtual_call run this args w

/-- `operator bool()` (utils.hpp:149-152). -/
def synchronized_callback.toBool {α : Type} (this : Addr) (w : World α) : Bool :=
  if (w.slots this).callback.isSome then true else false

/-- Move assignment (utils.hpp:120-127): both mutexes locked, then
`set(std::exchange(cb.callback, nullptr))`; the exchange is evaluated before `set` runs. -/
def synchronized_callback.assign_move {α ε : Type} (run : Runner α ε) (this cb : Addr)
    (w : World α) : Res α ε Unit :=
  let old := (w.slots cb).callback
  let w1 := w.write cb { w.slots cb with callback := none }
  synchronized_callback.virtual_set run this old w1

/-- Copy assignment (utils.hpp:129-136): both mutexes locked, then `set(cb.callback)`. -/
def synchronized_callback.assign_copy {α ε : Type} (run : Runner α ε) (this cb : Addr)
    (w : World α) : Res α ε Unit :=
  synchronized_callback.virtual_set run this (w.slots cb).callback w

/-- Copy assignment of `synchronized_stored_callback`.  The class declares no `operator=`
(utils.hpp:169-203), so the implicitly declared one runs: copy assignment of the base subobject
(utils.hpp:129-136), then member-wise `stored = cb.stored`.  An exception leaving the base
assignment skips the member copy. -/
def synchronized_stored_callback.assign_copy {α ε : Type} (run : Runner α ε) (this cb : Addr)
    (w : World α) : Res α ε Unit :=
  match synchronized_callback.assign_copy run this cb w with
  | none => none
  | some (.error e, w1) => some (.error e, w1)
  | some (.ok _, w1) =>
    some (.ok (), w1.write this { w1.slots this with stored := (w1.slots cb).stored })

/-- The assignment `s = func` written on an object whose static type is
`synchronized_stored_callback`.  The implicit copy assignment hides the `operator=` overloads of
the base class, so `func` is first converted to a temporary slot, here at address `tmp`, by the
constructor template (utils.hpp:172-174): the base constructor (utils.hpp:117) stores `func`
with the base `set`, and `stored` starts empty.  The temporary is copy-assigned to `*this` and
then destroyed, also when an exception is in flight; the base destructor (utils.hpp:118)
empties its callable with the base `set`. -/
def synchronized_stored_callback.assign {α ε : Type} (run : Runner α ε) (this tmp : Addr)
    (func : Option FnId) (w : World α) : Res α ε Unit :=
  let w0 := w.write tmp ⟨.replaying, func, none⟩
  match synchronized_stored_callback.assign_copy run this tmp w0 with
  | none => none
  | some (r, w1) => some (r, synchronized_callback.set tmp none w1)

/-- Runs the steps of a callable body in order; an exception or exhausted fuel ends it. -/
def runActs {α ε : Type} (step : Act α ε → World α → Res α ε Unit) :
    List (Act α ε) → World α → Res α ε Unit
  | [], w => some (.ok (), w)
  | x :: xs, w =>
    match step x w with
    | none => none
    | some (.error e, w1) => some (.error e, w1)
    | some (.ok _, w1) => runActs step xs w1

/-- One step of a callable body, with `run` running the callables it reaches. -/
def stepAct {α ε : Type} (run : Runner α ε) (x : Act α ε) (w : World α) : Res α ε Unit :=
  match x with
  | .assign p func => synchronized_callback.assign run p func w
  | .invoke p args =>
    match synchronized_callback.invoke run p args w with
    | none => none
    | some (.error e, w1) => some (.error e, w1)
    | some (.ok _, w1) => some (.ok (), w1)
  | .raise e => some (.error e, w)

/-- Runs user callable `f` on `a`: records the call, then runs its body.  The fuel bounds the
depth of calls of callables from inside callables. -/
def runFn {α ε : Type} (env : Env α ε) : Nat → Runner α ε
  | 0 => fun _ _ _ => none
  | n + 1 => fun f a w => runActs (stepAct (runFn env n)) (env f a) (w.record f a)

/-- A user callable that returns normally without touching any slot: running it only records
the call. -/
def ReturnsQuietly {α ε : Type} (run : Runner α ε) (f : FnId) : Prop :=
  ∀ (a : α) (w : World α), run f a w = some (.ok (), w.record f a)

/-- A sequence of `operator()` calls on one slot, stopped by the first exception. -/
def invokeAll {α ε : Type} (run : Runner α ε) (this : Addr) :
    List α → World α → Res α ε Unit
  | [], w => some (.ok (), w)
  | a :: rest, w =>
    match synchronized_callback.invoke run this a w with
    | none => none
    | some (.error e, w1) => some (.error e, w1)
    | some (.ok _, w1) => invokeAll run this rest w1

/-- World with one slot of each kind, both without callable and without stored entry:
address 0 holds a `synchronized_stored_callback`, every other address a
`synchronized_callback`. -/
def World.fresh (α : Type) : World α :=
  { slots := fun p => if p = 0 then ⟨.replaying, none, none⟩ else ⟨.plain, none, none⟩,
    trace := [] }

/-- Environment in which every callable has an empty body. -/
def Env.quiet (α ε : Type) : Env α ε := fun _ _ => []

/-- World in which both kinds of slot hold callable 5 and nothing is stored: address 0 holds
a `synchronized_stored_callback`, every other address a `synchronized_callback`. -/
def World.armed (α : Type) : World α :=
  { slots := fun p => if p = 0 then ⟨.replaying, some 5, none⟩ else ⟨.plain, some 5, none⟩,
    trace := [] }

/-- World in which the replaying slot at address 0 has no callable and still holds the missed
arguments 3; every other address holds an empty `synchronized_callback`. -/
def World.pending : World Nat :=
  { slots := fun p => if p = 0 then ⟨.replaying, none, some 3⟩ else ⟨.plain, none, none⟩,
    trace := [] }

/-- A user callable that throws `e` without touching any slot: running it records the call
and ends with the exception in flight. -/
def Throws {α ε : Type} (run : Runner α ε) (f : FnId) (e : ε) : Prop :=
  ∀ (a : α) (w : World α), run f a w = some (.error e, w.record f a)

/-- The two things a user does with a slot: assign a function, empty or not, and invoke. -/
inductive SlotOp (α : Type) where
  | set (func : Option FnId)
  | invoke (args : α)
  deriving Repr

/-- One user operation on the slot at `this`. -/
def applyOp {α ε : Type} (run : Runner α ε) (this : Addr) (op : SlotOp α) (w : World α) :
    Res α ε Unit :=
  match op with
  | .set func => synchronized_callback.assign run this func w
  | .invoke args =>
    match synchronized_callback.invoke run this args w with
    | none => none
    | some (.error e, w1) => some (.error e, w1)
    | some (.ok _, w1) => some (.ok (), w1)

/-- A sequence of user operations on one slot, stopped by the first exception. -/
def runOps {α ε : Type} (run : Runner α ε) (this : Addr) :
    List (SlotOp α) → World α → Res α ε Unit
  | [], w => some (.ok (), w)
  | op :: rest, w =>
    match applyOp run this op w with
    | none => none
    | some (.error e, w1) => some (.error e, w1)
    | some (.ok _, w1) => runOps run this rest w1

/-- Sample callables: callable 1 re-enters the slot at address 0 and assigns callable 2 to it,
callable 9 throws the error 13, every other callable has an empty body. -/
def Env.sample : Env Nat Nat := fun f _ =>
  if f = 1 then [Act.assign 0 (some 2)] else if f = 9 then [Act.raise 13] else []

/-- World in which both kinds of slot hold callable 9 and nothing is stored: address 0 holds
a `synchronized_stored_callback`, every other address a `synchronized_callback`. -/
def World.failing : World Nat :=
  { slots := fun p => if p = 0 then ⟨.replaying, some 9, none⟩ else ⟨.plain, some 9, none⟩,
    trace := [] }

/-! ### weak_bind -/

/-- Shared ownership as `std::shared_ptr` and `std::enable_shared_from_this` keep it: the
control block an object was attached to when a `shared_ptr` first took it (none if none ever
did), and the strong count of every control block. -/
structure Ownership where
  weak_this : Addr → Option Nat
  use_count : Nat → Nat

/-- World of a bound member call: ownership, the state the member function works on, and the
member-function dispatches made so far (target, bound arguments, call arguments). -/
structure BindWorld (σ β γ : Type) where
  own : Ownership
  user : σ
  dispatched : List (Addr × β × γ)

/-- A `std::weak_ptr`: empty, or observing a control block. -/
abbrev weak_ptr := Option Nat

/-- `std::weak_ptr::lock`: a strong reference if the observed block still has owners. -/
def weak_ptr.lock (wp : weak_ptr) (own : Ownership) : Option Nat :=
  match wp with
  | none => none
  | some cb => if 0 < own.use_count cb then some cb else none

/-- `rtc::weak_from_this` (utils.hpp:71-81).  With `HAVE_CXX17_WEAK_FROM_THIS` it is
`c->weak_from_this()`; otherwise `c->shared_from_this()`, which throws `bad_weak_ptr` unless the
object has an owner, the handler returning an empty `weak_ptr`. -/
def weak_from_this (cxx17 : Bool) (c : Addr) (own : Ownership) : weak_ptr :=
  if cxx17 then own.weak_this c
  else
    match own.weak_this c with
    | none => none
    | some cb => if 0 < own.use_count cb then some cb else none

/-- Value of `static_cast<R>(false)` for a return type `R`. -/
class StaticCastFalse (ρ : Type) where
  value : ρ

instance : StaticCastFalse Bool := ⟨false⟩

instance : StaticCastFalse Int := ⟨0⟩

instance : StaticCastFalse Nat := ⟨0⟩

instance : StaticCastFalse Unit := ⟨()⟩

/-- A member function: target, bound arguments, call arguments, state; result and new state. -/
abbrev Method (σ β γ ρ : Type) := Addr → β → γ → σ → ρ × σ

/-- Calling `std::bind(f, t, _args...)` with `args...`: one dispatch of `f` on `t`. -/
def std_bind {σ β γ ρ : Type} (f : Method σ β γ ρ) (t : Addr) (bargs : β) (args : γ)
    (w : BindWorld σ β γ) : ρ × BindWorld σ β γ :=
  ((f t bargs args w.user).1,
    { w with user := (f t bargs args w.user).2,
             dispatched := w.dispatched ++ [(t, bargs, args)] })

/-- `weak_bind` (utils.hpp:84-91), called in a world with ownership `own0`: the lambda
captures the bind expression and `weak_from_this(t)`; when called it dispatches if the weak
reference locks and otherwise returns `static_cast<R>(false)`. -/
def weak_bind {σ β γ ρ : Type} [StaticCastFalse ρ] (cxx17 : Bool) (f : Method σ β γ ρ)
    (t : Addr) (bargs : β) (own0 : Ownership) : γ → BindWorld σ β γ → ρ × BindWorld σ β γ :=
  let bound := std_bind f t bargs
  let weak_this := weak_from_this cxx17 t own0
  fun args w =>
    match weak_ptr.lock weak_this w.own with
    | some _ => bound args w
    | none => (StaticCastFalse.value, w)

/-- Every object attached to control block 0, which has one owner. -/
def Ownership.owned : Ownership := ⟨fun _ => some 0, fun _ => 1⟩

/-- The same attachment after the last owner released the block. -/
def Ownership.released : Ownership := ⟨fun _ => some 0, fun _ => 0⟩

/-- No object was ever taken by a `shared_ptr`. -/
def Ownership.unowned : Ownership := ⟨fun _ => none, fun _ => 0⟩

/-- A member function returning `true` that adds its arguments to the state. -/
def Method.sample : Method Nat Nat Nat Bool := fun _ b c n => (true, n + b + c)

/-! ### scope_guard -/

/-- World of a block: the state its code works on and the zero-argument callables run so far,
oldest first. -/
structure ScopeWorld (σ : Type) where
  user : σ
  ran : List FnId

/-- Data member of `scope_guard` (utils.hpp:108). -/
structure scope_guard where
  function : Option FnId
  deriving DecidableEq, Repr

/-- Constructor (utils.hpp:97): `function(std::move(func))`, empty body. -/
def scope_guard.ctor {σ : Type} (func : Option FnId) (w : ScopeWorld σ) :
    scope_guard × ScopeWorld σ :=
  (⟨func⟩, w)

/-- Destructor (utils.hpp:102-105): `if (function) function();`.  `act f` is what callable `f`
does to the state. -/
def scope_guard.dtor {σ : Type} (act : FnId → σ → σ) (g : scope_guard) (w : ScopeWorld σ) :
    ScopeWorld σ :=
  match g.function with
  | none => w
  | some f => { user := act f w.user, ran := w.ran ++ [f] }

/-- A block `{ scope_guard g(func); body }`.  The body leaves the block by reaching its end
(`.ok`) or by a return or exception (`.error`); the guard can be neither copied nor moved, so
the body has no access to it, and its destructor runs when the block is left, either way. -/
def scope_guard.block {σ ε ρ : Type} (act : FnId → σ → σ) (func : Option FnId)
    (body : ScopeWorld σ → Except ε ρ × ScopeWorld σ) (w : ScopeWorld σ) :
    Except ε ρ × ScopeWorld σ :=
  let gw := scope_guard.ctor func w
  let rw := body gw.2
  (rw.1, scope_guard.dtor act gw.1 rw.2)

/-! ### CheshireCat -/

/-- An `impl_ptr<T>` (`std::shared_ptr<T>`): empty, or pointing to a state object. -/
abbrev impl_ptr := Option Nat

/-- The `mImpl` member (utils.hpp:228) of the handle at every address. -/
abbrev Handles := Addr → impl_ptr

/-- Constructor from an `impl_ptr` (utils.hpp:209): `mImpl(std::move(impl))`. -/
def CheshireCat.ctor (this : Addr) (impl : impl_ptr) (h : Handles) : Handles :=
  Function.update h this impl

/-- Accessor `impl()` (utils.hpp:224-225). -/
def CheshireCat.impl (this : Addr) (h : Handles) : impl_ptr :=
  h this

/-- `std::shared_ptr` move assignment `dst = std::move(src)`: the pointer is taken out of
`src`, which is left empty, and then put into `dst`. -/
def shared_ptr.assign_move (dst src : Addr) (h : Handles) : Handles :=
  Function.update (Function.update h src none) dst (h src)

/-- Move assignment (utils.hpp:217-220): `mImpl = std::move(cc.mImpl)`. -/
def CheshireCat.assign_move (this cc : Addr) (h : Handles) : Handles :=
  shared_ptr.assign_move this cc h

/-- Move constructor (utils.hpp:212): `mImpl` starts empty, then `*this = std::move(cc)`. -/
def CheshireCat.ctor_move (this cc : Addr) (h : Handles) : Handles :=
  CheshireCat.assign_move this cc (Function.update h this none)

/-! ## Lemmas on the world -/

@[simp] theorem World.write_slots_same {α : Type} (w : World α) (p : Addr) (s : Slot α) :
    (w.write p s).slots p = s := by
  simp [World.write]

@[simp] theorem World.write_slots_other {α : Type} (w : World α) (p q : Addr) (s : Slot α)
    (h : q ≠ p) : (w.write p s).slots q = w.slots q := by
  simp [World.write, Function.update_noteq h]

@[simp] theorem World.write_trace {α : Type} (w : World α) (p : Addr) (s : Slot α) :
    (w.write p s).trace = w.trace := rfl

@[simp] theorem World.record_slots {α : Type} (w : World α) (f : FnId) (a : α) :
    (w.record f a).slots = w.slots := rfl

@[simp] theorem World.record_trace {α : Type} (w : World α) (f : FnId) (a : α) :
    (w.record f a).trace = w.trace ++ [(f, a)] := rfl

theorem callsOf_append {α : Type} (t u : List (FnId × α)) (f : FnId) :
    callsOf (t ++ u) f = callsOf t f ++ callsOf u f := by
  simp [callsOf]

@[simp] theorem callsOf_single_same {α : Type} (f : FnId) (a : α) :
    callsOf [(f, a)] f = [a] := by
  simp [callsOf]

/-- With fuel left, a callable whose body is empty returns quietly. -/
theorem runFn_returnsQuietly {α ε : Type} (env : Env α ε) (n : Nat) (f : FnId)
    (h : ∀ a, env f a = []) : ReturnsQuietly (runFn env (n + 1)) f := by
  intro a w
  simp [runFn, h, runActs]

/-- With fuel left, a callable whose body is a single `throw` throws without touching a
slot. -/
theorem runFn_throws {α ε : Type} (env : Env α ε) (n : Nat) (f : FnId) (e : ε)
    (h : ∀ a, env f a = [Act.raise e]) : Throws (runFn env (n + 1)) f e := by
  intro a w
  simp [runFn, h, runActs, stepAct]

/-! ## Callback slots -/

/-- Plain slot, no callable: `operator()` reports false and changes nothing. -/
theorem invoke_plain_none {α ε : Type} (run : Runner α ε) (s : Addr) (a : α) (w : World α)
    (hk : (w.slots s).kind = .plain) (hc : (w.slots s).callback = none) :
    synchronized_callback.invoke run s a w = some (.ok false, w) := by
  simp [synchronized_callback.invoke, synchronized_callback.virtual_call, hk,
    synchronized_callback.call, hc]

/-- Slot of either kind holding a quiet callable: `operator()` calls it once and reports
true. -/
theorem invoke_some {α ε : Type} (run : Runner α ε) (s : Addr) (a : α) (w : World α)
    (f : FnId) (hc : (w.slots s).callback = some f) (hq : ReturnsQuietly run f) :
    synchronized_callback.invoke run s a w = some (.ok true, w.record f a) := by
  cases hk : (w.slots s).kind <;>
    simp [synchronized_callback.invoke, synchronized_callback.virtual_call, hk,
      synchronized_callback.call, synchronized_stored_callback.call, hc, hq a w]

/-- Replaying slot, no callable: `operator()` stores the arguments and reports true. -/
theorem invoke_replaying_none {α ε : Type} (run : Runner α ε) (s : Addr) (a : α)
    (w : World α) (hk : (w.slots s).kind = .replaying) (hc : (w.slots s).callback = none) :
    synchronized_callback.invoke run s a w
      = some (.ok true, w.write s { w.slots s with stored := some a }) := by
  simp [synchronized_callback.invoke, synchronized_callback.virtual_call, hk,
    synchronized_callback.call, synchronized_stored_callback.call, hc]

/-- Replaying slot with a stored entry: assigning a quiet callable installs it, calls it once
with the entry and resets the entry. -/
theorem assign_replaying_stored {α ε : Type} (run : Runner α ε) (s : Addr) (f : FnId)
    (x : α) (w : World α) (hk : (w.slots s).kind = .replaying)
    (hs : (w.slots s).stored = some x) (hq : ReturnsQuietly run f) :
    synchronized_callback.assign run s (some f) w
      = some (.ok (), (w.record f x).write s ⟨.replaying, some f, none⟩) := by
  simp [synchronized_callback.assign, synchronized_callback.virtual_set, hk,
    synchronized_stored_callback.set, synchronized_callback.set,
    synchronized_stored_callback.func_dispatch, synchronized_stored_callback.call_func, hs,
    hq x, World.write, World.record]

/-- Replaying slot without stored entry: assigning installs the callable and calls nothing. -/
theorem assign_replaying_empty {α ε : Type} (run : Runner α ε) (s : Addr)
    (c : Option FnId) (w : World α) (hk : (w.slots s).kind = .replaying)
    (hs : (w.slots s).stored = none) :
    synchronized_callback.assign run s c w
      = some (.ok (), w.write s ⟨.replaying, c, none⟩) := by
  have key : ({ w.slots s with callback := c } : Slot α) = ⟨.replaying, c, none⟩ := by
    rw [← hk, ← hs]
  cases c <;>
    simp [synchronized_callback.assign, synchronized_callback.virtual_set, hk,
      synchronized_stored_callback.set, synchronized_callback.set, hs, key]

/-- Plain slot: assigning stores the function and calls nothing. -/
theorem assign_plain {α ε : Type} (run : Runner α ε) (s : Addr) (c : Option FnId)
    (w : World α) (hk : (w.slots s).kind = .plain) :
    synchronized_callback.assign run s c w
      = some (.ok (), w.write s { w.slots s with callback := c }) := by
  simp [synchronized_callback.assign, synchronized_callback.virtual_set, hk,
    synchronized_callback.set]

/-- Missed invocations on a replaying slot without callable: every one is stored over the
previous one, none calls anything. -/
theorem invokeAll_replaying_none {α ε : Type} (run : Runner α ε) (s : Addr) (l : List α) :
    ∀ w : World α, (w.slots s).kind = .replaying → (w.slots s).callback = none →
      ∃ w1, invokeAll run s l w = some (.ok (), w1) ∧ w1.trace = w.trace ∧
        (w1.slots s).kind = .replaying ∧ (w1.slots s).callback = none ∧
        ∀ hne : l ≠ [], (w1.slots s).stored = some (l.getLast hne) := by
  induction l with
  | nil =>
    intro w hk hc
    exact ⟨w, rfl, rfl, hk, hc, fun hne => absurd rfl hne⟩
  | cons a rest ih =>
    intro w hk hc
    obtain ⟨w1, h1, ht, hk1, hc1, hs1⟩ :=
      ih (w.write s { w.slots s with stored := some a }) (by simp [hk]) (by simp [hc])
    refine ⟨w1, ?_, ?_, hk1, hc1, ?_⟩
    · simp [invokeAll, invoke_replaying_none run s a w hk hc, h1]
    · simpa using ht
    · intro _
      cases rest with
      | nil =>
        simp [invokeAll] at h1
        subst h1
        simp
      | cons b tl => simpa using hs1 (by simp)

/-- C1: on a replaying slot without callable, invoke(a) followed by set(f) has called f exactly
once, with a, when set returns; a following invoke(b), f still being installed, calls f once
more with b, so that the calls of f are a then b. -/
theorem C1_replay_once_then_direct {α ε : Type} (run : Runner α ε) (s : Addr) (f : FnId)
    (a : α) (w : World α) (hk : (w.slots s).kind = .replaying)
    (hc : (w.slots s).callback = none) (hq : ReturnsQuietly run f) :
    ∃ w1 w2, synchronized_callback.invoke run s a w = some (.ok true, w1) ∧
      w1.trace = w.trace ∧
      synchronized_callback.assign run s (some f) w1 = some (.ok (), w2) ∧
      w2.trace = w.trace ++ [(f, a)] ∧
      (w2.slots s).callback = some f ∧
      ∀ b : α, ∃ w3, synchronized_callback.invoke run s b w2 = some (.ok true, w3) ∧
        w3.trace = w.trace ++ [(f, a), (f, b)] ∧
        callsOf w3.trace f = callsOf w.trace f ++ [a, b] := by
  refine ⟨_, _, invoke_replaying_none run s a w hk hc, rfl,
    assign_replaying_stored run s f a _ (by simp [hk]) (by simp) hq, by simp, by simp, ?_⟩
  intro b
  refine ⟨_, invoke_some run s b _ f (by simp) hq, by simp, ?_⟩
  simp [callsOf_append, callsOf]

/-- C2: buffering in a replaying slot is latest-wins.  On a slot without callable, after
invoke(a), invoke(b), set(f) the callable f has been called exactly once, with b, and not with
a; and after any non-empty sequence of invokes, set(f) calls f exactly once, with the arguments
of the last invoke of the sequence. -/
theorem C2_latest_wins {α ε : Type} (run : Runner α ε) (s : Addr) (f : FnId) (w : World α)
    (hk : (w.slots s).kind = .replaying) (hc : (w.slots s).callback = none)
    (hq : ReturnsQuietly run f) :
    (∀ a b : α, ∃ wa wb w2,
      synchronized_callback.invoke run s a w = some (.ok true, wa) ∧
      synchronized_callback.invoke run s b wa = some (.ok true, wb) ∧
      wb.trace = w.trace ∧
      synchronized_callback.assign run s (some f) wb = some (.ok (), w2) ∧
      w2.trace = w.trace ++ [(f, b)] ∧
      callsOf w2.trace f = callsOf w.trace f ++ [b]) ∧
    (∀ (l : List α) (hne : l ≠ []), ∃ w1 w2,
      invokeAll run s l w = some (.ok (), w1) ∧ w1.trace = w.trace ∧
      synchronized_callback.assign run s (some f) w1 = some (.ok (), w2) ∧
      w2.trace = w.trace ++ [(f, l.getLast hne)] ∧
      callsOf w2.trace f = callsOf w.trace f ++ [l.getLast hne]) := by
  constructor
  · intro a b
    refine ⟨_, _, _, invoke_replaying_none run s a w hk hc,
      invoke_replaying_none run s b _ (by simp [hk]) (by simp [hc]), by simp,
      assign_replaying_stored run s f b _ (by simp [hk]) (by simp) hq, by simp, ?_⟩
    simp [callsOf_append]
  · intro l hne
    obtain ⟨w1, h1, ht, hk1, _, hs1⟩ := invokeAll_replaying_none run s l w hk hc
    refine ⟨w1, _, h1, ht, assign_replaying_stored run s f _ w1 hk1 (hs1 hne) hq,
      by simp [ht], ?_⟩
    simp [callsOf_append, ht]

/-- C3: `operator()` on a replaying slot returns true.  Without callable it calls nothing,
leaves the callable empty and stores exactly the arguments; with a callable it calls that
callable once with the arguments and leaves the stored entry as it was. -/
theorem C3_replaying_invoke {α ε : Type} (run : Runner α ε) (s : Addr) (a : α) (w : World α)
    (hk : (w.slots s).kind = .replaying)
    (hq : ∀ f, (w.slots s).callback = some f → ReturnsQuietly run f) :
    ∃ w1, synchronized_callback.invoke run s a w = some (.ok true, w1) ∧
      ((w.slots s).callback = none →
        w1.trace = w.trace ∧ (w1.slots s).callback = none ∧ (w1.slots s).stored = some a) ∧
      (∀ f, (w.slots s).callback = some f →
        w1.trace = w.trace ++ [(f, a)] ∧ (w1.slots s).callback = some f ∧
          (w1.slots s).stored = (w.slots s).stored) := by
  cases hc : (w.slots s).callback with
  | none =>
    refine ⟨_, invoke_replaying_none run s a w hk hc, fun _ => ?_, fun f hf => ?_⟩
    · simp [hc]
    · cases hf
  | some g =>
    refine ⟨_, invoke_some run s a w g hc (hq g hc), fun hn => ?_, fun f hf => ?_⟩
    · cases hn
    · cases hf
      simp [hc]

/-- C4: `operator()` on a plain slot returns true exactly when a callable is installed; an
installed callable is called once with the arguments; without one the call returns false,
calls nothing and leaves the world as it was. -/
theorem C4_plain_invoke {α ε : Type} (run : Runner α ε) (s : Addr) (a : α) (w : World α)
    (hk : (w.slots s).kind = .plain)
    (hq : ∀ f, (w.slots s).callback = some f → ReturnsQuietly run f) :
    ∃ r w1, synchronized_callback.invoke run s a w = some (.ok r, w1) ∧
      (r = true ↔ (w.slots s).callback.isSome = true) ∧
      (∀ f, (w.slots s).callback = some f →
        r = true ∧ w1.trace = w.trace ++ [(f, a)] ∧ w1.slots = w.slots) ∧
      ((w.slots s).callback = none → r = false ∧ w1 = w) := by
  cases hc : (w.slots s).callback with
  | none =>
    exact ⟨false, w, invoke_plain_none run s a w hk hc, by simp, fun f hf => (by cases hf),
      fun _ => ⟨rfl, rfl⟩⟩
  | some g =>
    refine ⟨true, _, invoke_some run s a w g hc (hq g hc), by simp, fun f hf => ?_,
      fun hn => (by cases hn)⟩
    cases hf
    simp

/-- C5: on a slot of either kind in any state, invoke(a) after set(f) calls f exactly once,
with a, during that invoke, returns true and, on a replaying slot, leaves nothing stored. -/
theorem C5_invoke_after_set {α ε : Type} (run : Runner α ε) (s : Addr) (f : FnId) (a : α)
    (w : World α) (hq : ReturnsQuietly run f) :
    ∃ w1 w2, synchronized_callback.assign run s (some f) w = some (.ok (), w1) ∧
      synchronized_callback.invoke run s a w1 = some (.ok true, w2) ∧
      w2.trace = w1.trace ++ [(f, a)] ∧
      callsOf w2.trace f = callsOf w1.trace f ++ [a] ∧
      ((w.slots s).kind = .replaying → (w2.slots s).stored = none) := by
  cases hk : (w.slots s).kind with
  | plain =>
    refine ⟨_, _, assign_plain run s (some f) w hk,
      invoke_some run s a _ f (by simp) hq, by simp, by simp [callsOf], fun h => ?_⟩
    cases h
  | replaying =>
    cases hs : (w.slots s).stored with
    | none =>
      exact ⟨_, _, assign_replaying_empty run s (some f) w hk hs,
        invoke_some run s a _ f (by simp) hq, by simp, by simp [callsOf],
        fun _ => by simp⟩
    | some x =>
      exact ⟨_, _, assign_replaying_stored run s f x w hk hs hq,
        invoke_some run s a _ f (by simp) hq, by simp, by simp [callsOf],
        fun _ => by simp⟩

/-- C9: for distinct plain slots A and B, move assignment A = move(B) leaves in A the callable B
held and in B none; copy assignment A = B leaves in A the callable of B and B as it was; neither
calls a callable. -/
theorem C9_slot_assignment {α ε : Type} (run : Runner α ε) (A B : Addr) (w : World α)
    (hAB : A ≠ B) (hA : (w.slots A).kind = .plain) :
    (∃ w1, synchronized_callback.assign_move run A B w = some (.ok (), w1) ∧
      (w1.slots A).callback = (w.slots B).callback ∧ (w1.slots B).callback = none ∧
      w1.trace = w.trace) ∧
    (∃ w1, synchronized_callback.assign_copy run A B w = some (.ok (), w1) ∧
      (w1.slots A).callback = (w.slots B).callback ∧ w1.slots B = w.slots B ∧
      w1.trace = w.trace) := by
  constructor
  · have h := assign_plain run A (w.slots B).callback
      (w.write B { w.slots B with callback := none }) (by simp [hAB, hA])
    exact ⟨_, h, by simp, by simp [hAB.symm], by simp⟩
  · exact ⟨_, assign_plain run A (w.slots B).callback w hA, by simp, by simp [hAB.symm],
      by simp⟩

/-- C10: on a plain slot set(c) succeeds for every function c, empty or not, calls nothing, and
afterwards the boolean conversion is true exactly when c is non-empty; after set(empty) an
invoke returns false. -/
theorem C10_plain_set {α ε : Type} (run : Runner α ε) (s : Addr) (c : Option FnId) (a : α)
    (w : World α) (hk : (w.slots s).kind = .plain) :
    ∃ w1, synchronized_callback.assign run s c w = some (.ok (), w1) ∧
      w1.trace = w.trace ∧ (w1.slots s).callback = c ∧
      synchronized_callback.toBool s w1 = c.isSome ∧
      (c = none → synchronized_callback.invoke run s a w1 = some (.ok false, w1)) := by
  refine ⟨_, assign_plain run s c w hk, by simp, by simp, ?_, fun hc => ?_⟩
  · cases c <;> simp [synchronized_callback.toBool]
  · exact invoke_plain_none run s a _ (by simp [hk]) (by simp [hc])

/-- Slot of either kind holding a callable that throws: `operator()` lets the exception
through and does nothing after it. -/
theorem invoke_throws {α ε : Type} (run : Runner α ε) (s : Addr) (a : α) (w : World α)
    (f : FnId) (e : ε) (hc : (w.slots s).callback = some f) (ht : Throws run f e) :
    synchronized_callback.invoke run s a w = some (.error e, w.record f a) := by
  cases hk : (w.slots s).kind <;>
    simp [synchronized_callback.invoke, synchronized_callback.virtual_call, hk,
      synchronized_callback.call, synchronized_stored_callback.call, hc, ht a w]

/-- Replaying slot with a stored entry: assigning a callable that throws installs it, calls it
once with the entry and leaves the entry stored. -/
theorem assign_replaying_stored_throws {α ε : Type} (run : Runner α ε) (s : Addr) (f : FnId)
    (e : ε) (x : α) (w : World α) (hk : (w.slots s).kind = .replaying)
    (hs : (w.slots s).stored = some x) (ht : Throws run f e) :
    synchronized_callback.assign run s (some f) w
      = some (.error e, (w.write s ⟨.replaying, some f, some x⟩).record f x) := by
  have key : ({ w.slots s with callback := some f } : Slot α) = ⟨.replaying, some f, some x⟩ := by
    rw [← hk, ← hs]
  simp [synchronized_callback.assign, synchronized_callback.virtual_set, hk,
    synchronized_stored_callback.set, synchronized_callback.set,
    synchronized_stored_callback.func_dispatch, synchronized_stored_callback.call_func, hs,
    ht x, key]

/-- C14: a failure of the installed callable during invoke reaches the caller unmodified, for
both kinds of slot: invoke fails with exactly the error of the callable, the callable stays
installed, the callable was called once, and a replaying slot stores nothing for that invoke. -/
theorem C14_invoke_propagates_failure {α ε : Type} (run : Runner α ε) (s : Addr) (f : FnId)
    (e : ε) (a : α) (w : World α) (hc : (w.slots s).callback = some f)
    (ht : Throws run f e) :
    ∃ w1, synchronized_callback.invoke run s a w = some (.error e, w1) ∧
      w1.trace = w.trace ++ [(f, a)] ∧
      (w1.slots s).callback = some f ∧
      (w1.slots s).stored = (w.slots s).stored ∧
      w1.slots = w.slots :=
  ⟨_, invoke_throws run s a w f e hc ht, by simp, by simp [hc], by simp, by simp⟩

/-- C16: when the callable f given to set on a replaying slot fails while it is handed the
stored entry, set fails with that error, f is installed and the entry is still stored; a later
set(g) hands the same entry to g. -/
theorem C16_failed_replay_repeats {α ε : Type} (run : Runner α ε) (s : Addr) (f g : FnId)
    (e : ε) (x : α) (w : World α) (hk : (w.slots s).kind = .replaying)
    (hs : (w.slots s).stored = some x) (ht : Throws run f e) (hq : ReturnsQuietly run g) :
    ∃ w1 w2, synchronized_callback.assign run s (some f) w = some (.error e, w1) ∧
      w1.trace = w.trace ++ [(f, x)] ∧
      (w1.slots s).callback = some f ∧
      (w1.slots s).stored = some x ∧
      synchronized_callback.assign run s (some g) w1 = some (.ok (), w2) ∧
      w2.trace = w.trace ++ [(f, x), (g, x)] ∧
      (w2.slots s).callback = some g ∧
      (w2.slots s).stored = none := by
  refine ⟨_, _, assign_replaying_stored_throws run s f e x w hk hs ht, by simp, by simp,
    by simp, assign_replaying_stored run s g x _ (by simp) (by simp) hq, by simp, by simp,
    by simp⟩

/-- Replaying slot: assigning the empty function clears the callable, calls nothing and
leaves the stored entry alone. -/
theorem assign_replaying_none {α ε : Type} (run : Runner α ε) (s : Addr) (w : World α)
    (hk : (w.slots s).kind = .replaying) :
    synchronized_callback.assign run s none w
      = some (.ok (), w.write s { w.slots s with callback := none }) := by
  simp [synchronized_callback.assign, synchronized_callback.virtual_set, hk,
    synchronized_stored_callback.set, synchronized_callback.set]

/-- One user operation on a replaying slot whose callables are quiet returns normally, keeps the
dynamic type and keeps the slot from having a callable and a stored entry together. -/
theorem applyOp_keeps_exclusive {α ε : Type} (run : Runner α ε) (s : Addr) (op : SlotOp α)
    (w : World α) (hk : (w.slots s).kind = .replaying) (hq : ∀ f, ReturnsQuietly run f)
    (hinv : (w.slots s).callback = none ∨ (w.slots s).stored = none) :
    ∃ w1, applyOp run s op w = some (.ok (), w1) ∧ (w1.slots s).kind = .replaying ∧
      ((w1.slots s).callback = none ∨ (w1.slots s).stored = none) := by
  cases op with
  | set func =>
    cases hs : (w.slots s).stored with
    | none =>
      exact ⟨_, assign_replaying_empty run s func w hk hs, by simp, Or.inr (by simp)⟩
    | some x =>
      cases func with
      | none => exact ⟨_, assign_replaying_none run s w hk, by simp [hk], Or.inl (by simp)⟩
      | some f =>
        exact ⟨_, assign_replaying_stored run s f x w hk hs (hq f), by simp, Or.inr (by simp)⟩
  | invoke a =>
    cases hc : (w.slots s).callback with
    | none =>
      refine ⟨w.write s { w.slots s with stored := some a }, ?_, ?_, Or.inl ?_⟩
      · simp only [applyOp, invoke_replaying_none run s a w hk hc]
      · simp [hk]
      · simp [hc]
    | some f =>
      have hs : (w.slots s).stored = none := by
        rcases hinv with h | h
        · rw [hc] at h
          cases h
        · exact h
      refine ⟨w.record f a, ?_, ?_, Or.inr ?_⟩
      · simp only [applyOp, invoke_some run s a w f hc (hq f)]
      · simp [hk]
      · simp [hs]

/-- Any sequence of user operations on a replaying slot whose callables are quiet runs to its
end and keeps the slot from having a callable and a stored entry together. -/
theorem runOps_keeps_exclusive {α ε : Type} (run : Runner α ε) (s : Addr)
    (hq : ∀ f, ReturnsQuietly run f) (ops : List (SlotOp α)) :
    ∀ w : World α, (w.slots s).kind = .replaying →
      ((w.slots s).callback = none ∨ (w.slots s).stored = none) →
      ∃ w1, runOps run s ops w = some (.ok (), w1) ∧ (w1.slots s).kind = .replaying ∧
        ((w1.slots s).callback = none ∨ (w1.slots s).stored = none) := by
  induction ops with
  | nil =>
    intro w hk hinv
    exact ⟨w, rfl, hk, hinv⟩
  | cons op rest ih =>
    intro w hk hinv
    obtain ⟨w1, h1, hk1, hinv1⟩ := applyOp_keeps_exclusive run s op w hk hq hinv
    obtain ⟨w2, h2, hk2, hinv2⟩ := ih w1 hk1 hinv1
    exact ⟨w2, by simp [runOps, h1, h2], hk2, hinv2⟩

/-- C15: a replaying slot reached from a freshly constructed one (nothing stored) by any finite
sequence of set and invoke operations, the callables neither failing nor re-entering, never has
a callable installed and an entry stored at once; every such sequence runs to its end. -/
theorem C15_callable_excludes_stored {α ε : Type} (run : Runner α ε) (s : Addr)
    (ops : List (SlotOp α)) (w : World α) (hk : (w.slots s).kind = .replaying)
    (hfresh : (w.slots s).stored = none) (hq : ∀ f, ReturnsQuietly run f) :
    ∃ w1, runOps run s ops w = some (.ok (), w1) ∧
      ¬ ((w1.slots s).callback.isSome = true ∧ (w1.slots s).stored.isSome = true) := by
  obtain ⟨w1, h1, _, hinv⟩ := runOps_keeps_exclusive run s hq ops w hk (Or.inr hfresh)
  refine ⟨w1, h1, ?_⟩
  rintro ⟨hc, hs⟩
  rcases hinv with h | h
  · simp [h] at hc
  · simp [h] at hs

/-- Through `operator=(std::function)` of the base class, which reaches the override of `set`
by a virtual call, and through `operator()`: set with an empty function leaves a stored entry in
place and invoke with a callable installed leaves it unchanged; an operation that changes the stored
entry is either an invoke that finds no callable, which stores its arguments, or a set of a
non-empty function, which hands the entry to that function and resets it.  So after invoke(a)
without callable, set(empty), set(f) the function f has been called exactly once, with a. -/
theorem stored_lifecycle_through_set {α ε : Type} (run : Runner α ε) (s : Addr) (w : World α)
    (hk : (w.slots s).kind = .replaying) (hq : ∀ f, ReturnsQuietly run f) :
    (∃ w1, synchronized_callback.assign run s none w = some (.ok (), w1) ∧
      (w1.slots s).stored = (w.slots s).stored ∧ w1.trace = w.trace) ∧
    (∀ f a, (w.slots s).callback = some f →
      ∃ w1, synchronized_callback.invoke run s a w = some (.ok true, w1) ∧
        (w1.slots s).stored = (w.slots s).stored) ∧
    (∀ op w1, applyOp run s op w = some (.ok (), w1) →
      (w1.slots s).stored ≠ (w.slots s).stored →
      (∃ a, op = .invoke a ∧ (w.slots s).callback = none ∧ (w1.slots s).stored = some a) ∨
      (∃ f x, op = .set (some f) ∧ (w.slots s).stored = some x ∧
        (w1.slots s).stored = none ∧ w1.trace = w.trace ++ [(f, x)])) ∧
    ((w.slots s).callback = none → ∀ a f, ∃ w1 w2 w3,
      synchronized_callback.invoke run s a w = some (.ok true, w1) ∧
      synchronized_callback.assign run s none w1 = some (.ok (), w2) ∧
      (w2.slots s).stored = some a ∧
      synchronized_callback.assign run s (some f) w2 = some (.ok (), w3) ∧
      w3.trace = w.trace ++ [(f, a)] ∧
      callsOf w3.trace f = callsOf w.trace f ++ [a]) := by
  refine ⟨⟨_, assign_replaying_none run s w hk, by simp, by simp⟩, fun f a hc => ?_,
    fun op w1 hop hne => ?_, fun hc a f => ?_⟩
  · exact ⟨_, invoke_some run s a w f hc (hq f), by simp⟩
  · cases op with
    | set func =>
      cases func with
      | none =>
        simp only [applyOp, assign_replaying_none run s w hk, Option.some.injEq,
          Prod.mk.injEq, true_and] at hop
        subst hop
        simp at hne
      | some f =>
        cases hs : (w.slots s).stored with
        | none =>
          simp only [applyOp, assign_replaying_empty run s (some f) w hk hs,
            Option.some.injEq, Prod.mk.injEq, true_and] at hop
          subst hop
          simp [hs] at hne
        | some x =>
          simp only [applyOp, assign_replaying_stored run s f x w hk hs (hq f),
            Option.some.injEq, Prod.mk.injEq, true_and] at hop
          subst hop
          exact Or.inr ⟨f, x, rfl, rfl, by simp, by simp⟩
    | invoke a =>
      cases hc : (w.slots s).callback with
      | none =>
        simp only [applyOp, invoke_replaying_none run s a w hk hc, Option.some.injEq,
          Prod.mk.injEq, true_and] at hop
        subst hop
        exact Or.inl ⟨a, rfl, rfl, by simp⟩
      | some f =>
        simp only [applyOp, invoke_some run s a w f hc (hq f), Option.some.injEq,
          Prod.mk.injEq, true_and] at hop
        subst hop
        simp at hne
  · refine ⟨_, _, _, invoke_replaying_none run s a w hk hc,
      assign_replaying_none run s _ (by simp [hk]), by simp,
      assign_replaying_stored run s f a _ (by simp [hk]) (by simp) (hq f), by simp, ?_⟩
    simp [callsOf_append]

/-- Assigning the empty function to a replaying slot through its own type: the temporary built
from the function has nothing stored, and the member-wise copy leaves the slot with nothing
stored either; nothing is called. -/
theorem own_assign_none_wipes_stored {α ε : Type} (run : Runner α ε) (s tmp : Addr)
    (w : World α) (hk : (w.slots s).kind = .replaying) (hne : tmp ≠ s) :
    ∃ w1, synchronized_stored_callback.assign run s tmp none w = some (.ok (), w1) ∧
      (w1.slots s).callback = none ∧ (w1.slots s).stored = none ∧ w1.trace = w.trace := by
  have hsn : s ≠ tmp := fun h => hne h.symm
  have hk0 : ((w.write tmp ⟨.replaying, none, none⟩).slots s).kind = .replaying := by
    simp [hsn, hk]
  have base : synchronized_callback.virtual_set run s none
      (w.write tmp ⟨.replaying, none, none⟩) = _ :=
    assign_replaying_none run s (w.write tmp ⟨.replaying, none, none⟩) hk0
  have h : synchronized_stored_callback.assign run s tmp none w
      = some (.ok (), synchronized_callback.set tmp none
          (((w.write tmp ⟨.replaying, none, none⟩).write s
            { w.slots s with callback := none }).write s
              { w.slots s with callback := none, stored := none })) := by
    simp [synchronized_stored_callback.assign, synchronized_stored_callback.assign_copy,
      synchronized_callback.assign_copy, base, hsn, hne]
  exact ⟨_, h, by simp [synchronized_callback.set, hsn],
    by simp [synchronized_callback.set, hsn], by simp [synchronized_callback.set]⟩

/-- Copy assignment between two distinct replaying slots, the source holding no callable: the
destination ends with the stored entry of the source, whatever it had, and nothing is called. -/
theorem own_assign_copy_copies_stored {α ε : Type} (run : Runner α ε) (A B : Addr)
    (w : World α) (hA : (w.slots A).kind = .replaying) (hAB : A ≠ B)
    (hB : (w.slots B).callback = none) :
    ∃ w1, synchronized_stored_callback.assign_copy run A B w = some (.ok (), w1) ∧
      (w1.slots A).stored = (w.slots B).stored ∧ w1.trace = w.trace := by
  have hBA : B ≠ A := fun h => hAB h.symm
  have base : synchronized_callback.virtual_set run A none w = _ :=
    assign_replaying_none run A w hA
  have h : synchronized_stored_callback.assign_copy run A B w
      = some (.ok (), (w.write A { w.slots A with callback := none }).write A
          { w.slots A with callback := none, stored := (w.slots B).stored }) := by
    simp [synchronized_stored_callback.assign_copy, synchronized_callback.assign_copy, hB,
      base, hBA]
  exact ⟨_, h, by simp, by simp⟩

/-- C12: the code at the failing input.  A replaying slot without callable misses invoke(7).
Assigning the empty function to it through its own type leaves nothing stored, so that a
following assignment of callable 5 calls nothing: the missed call is lost.  The same three steps
through `operator=(std::function)` of the base class keep the entry and call 5 with 7. -/
theorem C12_own_type_assignment_wipes_stored :
    ∃ w1 w2 w3 v2 v3,
      synchronized_callback.invoke (runFn (Env.quiet Nat Unit) 1) 0 7 (World.fresh Nat)
        = some (.ok true, w1) ∧
      (w1.slots 0).stored = some 7 ∧
      synchronized_stored_callback.assign (runFn (Env.quiet Nat Unit) 1) 0 1 none w1
        = some (.ok (), w2) ∧
      (w2.slots 0).stored = none ∧
      synchronized_stored_callback.assign (runFn (Env.quiet Nat Unit) 1) 0 1 (some 5) w2
        = some (.ok (), w3) ∧
      w3.trace = [] ∧ callsOf w3.trace 5 = [] ∧ (w3.slots 0).callback = some 5 ∧
      synchronized_callback.assign (runFn (Env.quiet Nat Unit) 1) 0 none w1
        = some (.ok (), v2) ∧
      (v2.slots 0).stored = some 7 ∧
      synchronized_callback.assign (runFn (Env.quiet Nat Unit) 1) 0 (some 5) v2
        = some (.ok (), v3) ∧
      v3.trace = [(5, 7)] :=
  ⟨_, _, _, _, _, rfl, rfl, rfl, rfl, rfl, rfl, rfl, rfl, rfl, rfl, rfl, rfl⟩

/-- A callable whose body is one assignment to a slot runs as that assignment made right
after the call is recorded. -/
theorem runFn_single_assign {α ε : Type} (env : Env α ε) (n : Nat) (s : Addr) (f : FnId)
    (c : Option FnId) (x : α) (w : World α) (hf : env f x = [Act.assign s c]) :
    runFn env (n + 1) f x w = synchronized_callback.assign (runFn env n) s c (w.record f x) := by
  simp only [runFn, hf, runActs, stepAct]
  cases synchronized_callback.assign (runFn env n) s c (w.record f x) with
  | none => rfl
  | some r =>
    rcases r with ⟨r, w2⟩
    cases r <;> rfl

/-- Replaying slot with a stored entry: when the callable `f` being assigned re-enters the slot
and assigns a quiet callable `g`, both are called with the entry, `f` first, and `g` ends up
installed. -/
theorem assign_replaying_stored_reentrant {α ε : Type} (env : Env α ε) (n : Nat) (s : Addr)
    (f g : FnId) (x : α) (w : World α) (hk : (w.slots s).kind = .replaying)
    (hs : (w.slots s).stored = some x) (hf : env f x = [Act.assign s (some g)])
    (hg : ∀ a, env g a = []) :
    ∃ w1, synchronized_callback.assign (runFn env (n + 2)) s (some f) w = some (.ok (), w1) ∧
      w1.trace = w.trace ++ [(f, x), (g, x)] ∧
      (w1.slots s).callback = some g ∧ (w1.slots s).stored = none := by
  have inner := assign_replaying_stored (runFn env (n + 1)) s g x
    ((w.write s ⟨.replaying, some f, some x⟩).record f x) (by simp) (by simp)
    (runFn_returnsQuietly env n g hg)
  have outer : synchronized_callback.assign (runFn env (n + 2)) s (some f) w
      = some (.ok (), ((((w.write s ⟨.replaying, some f, some x⟩).record f x).record g x).write
          s ⟨.replaying, some g, none⟩).write s ⟨.replaying, some g, none⟩) := by
    have hrun := runFn_single_assign env (n + 1) s f (some g) x
      (w.write s ⟨.replaying, some f, some x⟩) hf
    rw [inner] at hrun
    simp [synchronized_callback.assign, synchronized_callback.virtual_set, hk, hs,
      synchronized_stored_callback.set, synchronized_callback.set,
      synchronized_stored_callback.func_dispatch, synchronized_stored_callback.call_func, hrun]
  exact ⟨_, outer, by simp, by simp, by simp⟩

/-- C13: the code at the failing input.  A replaying slot misses invoke(7); set(1) then hands
the entry to callable 1, which re-enters set on the same slot with callable 2; the entry is
still stored at that moment and is handed to callable 2 as well, so it is delivered twice. -/
theorem C13_reentrant_set_replays_twice :
    ∃ w1 w2, synchronized_callback.invoke (runFn Env.sample 2) 0 7 (World.fresh Nat)
        = some (.ok true, w1) ∧
      (w1.slots 0).stored = some 7 ∧
      synchronized_callback.assign (runFn Env.sample 2) 0 (some 1) w1 = some (.ok (), w2) ∧
      w2.trace = [(1, 7), (2, 7)] ∧
      callsOf w2.trace 2 = [7] ∧
      (w2.slots 0).callback = some 2 ∧ (w2.slots 0).stored = none :=
  ⟨_, _, rfl, rfl, rfl, rfl, rfl, rfl, rfl⟩

/-! ## weak_bind, scope_guard, CheshireCat -/

/-- C6: a callable made by weak_bind, when called, dispatches the bound method exactly once on
the target with the bound and call arguments and returns its result if the weak reference taken
at bind time locks; if it does not lock, nothing is dispatched, the world is unchanged and the
result is static_cast<R>(false): false for bool, 0 for integers, nothing for void. -/
theorem C6_weak_bind_call {σ β γ ρ : Type} [StaticCastFalse ρ] (cxx17 : Bool)
    (f : Method σ β γ ρ) (t : Addr) (bargs : β) (own0 : Ownership) (args : γ)
    (w : BindWorld σ β γ) :
    (∀ cb, weak_ptr.lock (weak_from_this cxx17 t own0) w.own = some cb →
      (weak_bind cxx17 f t bargs own0 args w).1 = (f t bargs args w.user).1 ∧
      (weak_bind cxx17 f t bargs own0 args w).2.user = (f t bargs args w.user).2 ∧
      (weak_bind cxx17 f t bargs own0 args w).2.dispatched
        = w.dispatched ++ [(t, bargs, args)]) ∧
    (weak_ptr.lock (weak_from_this cxx17 t own0) w.own = none →
      weak_bind cxx17 f t bargs own0 args w = (StaticCastFalse.value, w)) ∧
    (StaticCastFalse.value : Bool) = false ∧ (StaticCastFalse.value : Int) = 0 ∧
    (StaticCastFalse.value : Nat) = 0 ∧ (StaticCastFalse.value : Unit) = () := by
  refine ⟨fun cb h => ?_, fun h => ?_, rfl, rfl, rfl, rfl⟩
  · simp [weak_bind, h, std_bind]
  · simp [weak_bind, h]

/-- C7: a scope_guard built with a non-empty action runs it exactly once, when the guard is
destroyed and not when it is built, however the block is left; a guard built with an empty
action runs nothing. -/
theorem C7_scope_guard_runs_once {σ ε ρ : Type} (act : FnId → σ → σ) (f : FnId)
    (body : ScopeWorld σ → Except ε ρ × ScopeWorld σ) (w : ScopeWorld σ) :
    (scope_guard.ctor (some f) w).2 = w ∧
    (scope_guard.block act (some f) body w).1 = (body w).1 ∧
    (scope_guard.block act (some f) body w).2.ran = (body w).2.ran ++ [f] ∧
    (scope_guard.block act (some f) body w).2.ran.count f = (body w).2.ran.count f + 1 ∧
    (scope_guard.block act (some f) body w).2.user = act f (body w).2.user ∧
    scope_guard.block act none body w = body w := by
  have hran : (scope_guard.block act (some f) body w).2.ran = (body w).2.ran ++ [f] := by
    simp [scope_guard.block, scope_guard.ctor, scope_guard.dtor]
  refine ⟨rfl, rfl, hran, ?_, ?_, ?_⟩
  · rw [hran, List.count_append]
    simp
  · simp [scope_guard.block, scope_guard.ctor, scope_guard.dtor]
  · simp [scope_guard.block, scope_guard.ctor, scope_guard.dtor]

/-- C8: a handle built from pointer p gives p back from impl(); after move construction or move
assignment of a distinct handle from it, the new handle gives p and the old one is empty, so
the two never both hold the state p points to. -/
theorem C8_handle_move (h : Handles) (a b : Addr) (p : impl_ptr) (hab : a ≠ b) :
    CheshireCat.impl a (CheshireCat.ctor a p h) = p ∧
    (CheshireCat.impl b (CheshireCat.ctor_move b a (CheshireCat.ctor a p h)) = p ∧
      CheshireCat.ctor_move b a (CheshireCat.ctor a p h) a = none ∧
      (p ≠ none → ¬ (CheshireCat.ctor_move b a (CheshireCat.ctor a p h) a = p ∧
        CheshireCat.ctor_move b a (CheshireCat.ctor a p h) b = p))) ∧
    (CheshireCat.impl b (CheshireCat.assign_move b a (CheshireCat.ctor a p h)) = p ∧
      CheshireCat.assign_move b a (CheshireCat.ctor a p h) a = none ∧
      (p ≠ none → ¬ (CheshireCat.assign_move b a (CheshireCat.ctor a p h) a = p ∧
        CheshireCat.assign_move b a (CheshireCat.ctor a p h) b = p))) := by
  have hba : b ≠ a := fun e => hab e.symm
  have e1 : CheshireCat.ctor_move b a (CheshireCat.ctor a p h) a = none := by
    simp [CheshireCat.ctor_move, CheshireCat.assign_move, shared_ptr.assign_move,
      CheshireCat.ctor, Function.update_noteq hab, Function.update_noteq hba]
  have e2 : CheshireCat.assign_move b a (CheshireCat.ctor a p h) a = none := by
    simp [CheshireCat.assign_move, shared_ptr.assign_move, CheshireCat.ctor,
      Function.update_noteq hab]
  refine ⟨by simp [CheshireCat.impl, CheshireCat.ctor], ⟨?_, e1, ?_⟩, ⟨?_, e2, ?_⟩⟩
  · simp [CheshireCat.impl, CheshireCat.ctor_move, CheshireCat.assign_move,
      shared_ptr.assign_move, CheshireCat.ctor, Function.update_noteq hab]
  · intro hp hboth
    exact hp (hboth.1.symm.trans e1)
  · simp [CheshireCat.impl, CheshireCat.assign_move, shared_ptr.assign_move, CheshireCat.ctor]
  · intro hp hboth
    exact hp (hboth.1.symm.trans e2)

/-- C17: liveness of a weak_bind callable is decided by the weak reference taken at bind time.
If the target had never been taken by a shared_ptr when weak_bind was called, weak_from_this
gives an empty weak reference, and every later call of the callable, whatever the ownership
then is, dispatches nothing, leaves the world as it is and returns static_cast<R>(false). -/
theorem C17_unowned_target_never_dispatches {σ β γ ρ : Type} [StaticCastFalse ρ]
    (cxx17 : Bool) (f : Method σ β γ ρ) (t : Addr) (bargs : β) (own0 : Ownership)
    (h0 : own0.weak_this t = none) (args : γ) (w : BindWorld σ β γ) :
    weak_from_this cxx17 t own0 = none ∧
    weak_bind cxx17 f t bargs own0 args w = (StaticCastFalse.value, w) ∧
    (weak_bind cxx17 f t bargs own0 args w).2.dispatched = w.dispatched := by
  have hw : weak_from_this cxx17 t own0 = none := by
    cases cxx17 <;> simp [weak_from_this, h0]
  have hb : weak_bind cxx17 f t bargs own0 args w = (StaticCastFalse.value, w) := by
    simp [weak_bind, hw, weak_ptr.lock]
  exact ⟨hw, hb, by rw [hb]⟩

/-! ## The theorems at concrete inputs -/

/-- C1 at a fresh replaying slot: invoke(7), set(5), then invoke(b). -/
theorem C1_replay_once_then_direct_witness :
    ((World.fresh Nat).slots 0).kind = .replaying ∧
    ((World.fresh Nat).slots 0).callback = none ∧
    ReturnsQuietly (runFn (Env.quiet Nat Unit) 1) 5 ∧
    ∃ w1 w2, synchronized_callback.invoke (runFn (Env.quiet Nat Unit) 1) 0 7 (World.fresh Nat)
        = some (.ok true, w1) ∧
      w1.trace = (World.fresh Nat).trace ∧
      synchronized_callback.assign (runFn (Env.quiet Nat Unit) 1) 0 (some 5) w1
        = some (.ok (), w2) ∧
      w2.trace = (World.fresh Nat).trace ++ [(5, 7)] ∧
      (w2.slots 0).callback = some 5 ∧
      ∀ b : Nat, ∃ w3, synchronized_callback.invoke (runFn (Env.quiet Nat Unit) 1) 0 b w2
          = some (.ok true, w3) ∧
        w3.trace = (World.fresh Nat).trace ++ [(5, 7), (5, b)] ∧
        callsOf w3.trace 5 = callsOf (World.fresh Nat).trace 5 ++ [7, b] :=
  ⟨rfl, rfl, runFn_returnsQuietly _ 0 5 (fun _ => rfl),
    C1_replay_once_then_direct (runFn (Env.quiet Nat Unit) 1) 0 5 7 (World.fresh Nat) rfl rfl
      (runFn_returnsQuietly _ 0 5 (fun _ => rfl))⟩

/-- C2 at a fresh replaying slot: invoke(3), invoke(4), then set(5). -/
theorem C2_latest_wins_witness :
    ((World.fresh Nat).slots 0).kind = .replaying ∧
    ((World.fresh Nat).slots 0).callback = none ∧
    ReturnsQuietly (runFn (Env.quiet Nat Unit) 1) 5 ∧
    ∃ w1 w2, invokeAll (runFn (Env.quiet Nat Unit) 1) 0 [3, 4] (World.fresh Nat)
        = some (.ok (), w1) ∧
      w1.trace = (World.fresh Nat).trace ∧
      synchronized_callback.assign (runFn (Env.quiet Nat Unit) 1) 0 (some 5) w1
        = some (.ok (), w2) ∧
      w2.trace = (World.fresh Nat).trace ++ [(5, 4)] ∧
      callsOf w2.trace 5 = callsOf (World.fresh Nat).trace 5 ++ [4] :=
  ⟨rfl, rfl, runFn_returnsQuietly _ 0 5 (fun _ => rfl),
    (C2_latest_wins (runFn (Env.quiet Nat Unit) 1) 0 5 (World.fresh Nat) rfl rfl
      (runFn_returnsQuietly _ 0 5 (fun _ => rfl))).2 [3, 4] (by simp)⟩

/-- C3 at a replaying slot holding callable 5: invoke(7). -/
theorem C3_replaying_invoke_witness :
    ((World.armed Nat).slots 0).kind = .replaying ∧
    (∀ f, ((World.armed Nat).slots 0).callback = some f →
      ReturnsQuietly (runFn (Env.quiet Nat Unit) 1) f) ∧
    ∃ w1, synchronized_callback.invoke (runFn (Env.quiet Nat Unit) 1) 0 7 (World.armed Nat)
        = some (.ok true, w1) ∧
      (((World.armed Nat).slots 0).callback = none →
        w1.trace = (World.armed Nat).trace ∧ (w1.slots 0).callback = none ∧
          (w1.slots 0).stored = some 7) ∧
      (∀ f, ((World.armed Nat).slots 0).callback = some f →
        w1.trace = (World.armed Nat).trace ++ [(f, 7)] ∧ (w1.slots 0).callback = some f ∧
          (w1.slots 0).stored = ((World.armed Nat).slots 0).stored) :=
  ⟨rfl, fun f _ => runFn_returnsQuietly _ 0 f (fun _ => rfl),
    C3_replaying_invoke (runFn (Env.quiet Nat Unit) 1) 0 7 (World.armed Nat) rfl
      (fun f _ => runFn_returnsQuietly _ 0 f (fun _ => rfl))⟩

/-- C4 at a plain slot holding callable 5: invoke(7). -/
theorem C4_plain_invoke_witness :
    ((World.armed Nat).slots 1).kind = .plain ∧
    (∀ f, ((World.armed Nat).slots 1).callback = some f →
      ReturnsQuietly (runFn (Env.quiet Nat Unit) 1) f) ∧
    ∃ r w1, synchronized_callback.invoke (runFn (Env.quiet Nat Unit) 1) 1 7 (World.armed Nat)
        = some (.ok r, w1) ∧
      (r = true ↔ ((World.armed Nat).slots 1).callback.isSome = true) ∧
      (∀ f, ((World.armed Nat).slots 1).callback = some f →
        r = true ∧ w1.trace = (World.armed Nat).trace ++ [(f, 7)] ∧
          w1.slots = (World.armed Nat).slots) ∧
      (((World.armed Nat).slots 1).callback = none → r = false ∧ w1 = World.armed Nat) :=
  ⟨rfl, fun f _ => runFn_returnsQuietly _ 0 f (fun _ => rfl),
    C4_plain_invoke (runFn (Env.quiet Nat Unit) 1) 1 7 (World.armed Nat) rfl
      (fun f _ => runFn_returnsQuietly _ 0 f (fun _ => rfl))⟩

/-- C5 at a replaying slot that still holds a missed entry: set(6), then invoke(7). -/
theorem C5_invoke_after_set_witness :
    ReturnsQuietly (runFn (Env.quiet Nat Unit) 1) 6 ∧
    ∃ w1 w2, synchronized_callback.assign (runFn (Env.quiet Nat Unit) 1) 0 (some 6)
        World.pending = some (.ok (), w1) ∧
      synchronized_callback.invoke (runFn (Env.quiet Nat Unit) 1) 0 7 w1
        = some (.ok true, w2) ∧
      w2.trace = w1.trace ++ [(6, 7)] ∧
      callsOf w2.trace 6 = callsOf w1.trace 6 ++ [7] ∧
      ((World.pending.slots 0).kind = .replaying → (w2.slots 0).stored = none) :=
  ⟨runFn_returnsQuietly _ 0 6 (fun _ => rfl),
    C5_invoke_after_set (runFn (Env.quiet Nat Unit) 1) 0 6 7 World.pending
      (runFn_returnsQuietly _ 0 6 (fun _ => rfl))⟩

/-- C6 for a member function returning a bool, bound while its target has one owner: called
while the owner is alive it dispatches, called after the owner is gone it does not. -/
theorem C6_weak_bind_call_witness :
    weak_ptr.lock (weak_from_this false 3 Ownership.owned) Ownership.owned = some 0 ∧
    weak_ptr.lock (weak_from_this false 3 Ownership.owned) Ownership.released = none ∧
    (weak_bind false Method.sample 3 10 Ownership.owned 20 ⟨Ownership.owned, 100, []⟩).1
      = true ∧
    (weak_bind false Method.sample 3 10 Ownership.owned 20 ⟨Ownership.owned, 100, []⟩).2.user
      = 130 ∧
    (weak_bind false Method.sample 3 10 Ownership.owned 20
      ⟨Ownership.owned, 100, []⟩).2.dispatched = [(3, 10, 20)] ∧
    (weak_bind false Method.sample 3 10 Ownership.owned 20 ⟨Ownership.released, 100, []⟩)
      = (false, ⟨Ownership.released, 100, []⟩) :=
  have alive := (C6_weak_bind_call false Method.sample 3 10 Ownership.owned 20
    ⟨Ownership.owned, 100, []⟩).1 0 rfl
  have gone := (C6_weak_bind_call false Method.sample 3 10 Ownership.owned 20
    ⟨Ownership.released, 100, []⟩).2.1 rfl
  ⟨rfl, rfl, alive.1, alive.2.1, alive.2.2, gone⟩

/-- C8 for handles at addresses 1 and 2 and the state object 9. -/
theorem C8_handle_move_witness :
    (1 : Addr) ≠ 2 ∧
    CheshireCat.impl 1 (CheshireCat.ctor 1 (some 9) (fun _ => none)) = some 9 ∧
    CheshireCat.impl 2 (CheshireCat.ctor_move 2 1 (CheshireCat.ctor 1 (some 9) (fun _ => none)))
      = some 9 ∧
    CheshireCat.ctor_move 2 1 (CheshireCat.ctor 1 (some 9) (fun _ => none)) 1 = none ∧
    CheshireCat.impl 2
      (CheshireCat.assign_move 2 1 (CheshireCat.ctor 1 (some 9) (fun _ => none))) = some 9 ∧
    CheshireCat.assign_move 2 1 (CheshireCat.ctor 1 (some 9) (fun _ => none)) 1 = none :=
  ⟨by decide,
    (C8_handle_move (fun _ => none) 1 2 (some 9) (by decide)).1,
    (C8_handle_move (fun _ => none) 1 2 (some 9) (by decide)).2.1.1,
    (C8_handle_move (fun _ => none) 1 2 (some 9) (by decide)).2.1.2.1,
    (C8_handle_move (fun _ => none) 1 2 (some 9) (by decide)).2.2.1,
    (C8_handle_move (fun _ => none) 1 2 (some 9) (by decide)).2.2.2.1⟩

/-- C9 for the plain slots at addresses 1 and 2, the source holding callable 5. -/
theorem C9_slot_assignment_witness :
    (1 : Addr) ≠ 2 ∧ ((World.armed Nat).slots 1).kind = .plain ∧
    (∃ w1, synchronized_callback.assign_move (runFn (Env.quiet Nat Unit) 1) 1 2
        (World.armed Nat) = some (.ok (), w1) ∧
      (w1.slots 1).callback = ((World.armed Nat).slots 2).callback ∧
      (w1.slots 2).callback = none ∧ w1.trace = (World.armed Nat).trace) ∧
    (∃ w1, synchronized_callback.assign_copy (runFn (Env.quiet Nat Unit) 1) 1 2
        (World.armed Nat) = some (.ok (), w1) ∧
      (w1.slots 1).callback = ((World.armed Nat).slots 2).callback ∧
      w1.slots 2 = (World.armed Nat).slots 2 ∧ w1.trace = (World.armed Nat).trace) :=
  ⟨by decide, rfl,
    C9_slot_assignment (runFn (Env.quiet Nat Unit) 1) 1 2 (World.armed Nat) (by decide) rfl⟩

/-- C10 for a plain slot holding callable 5: set(empty), then invoke(7). -/
theorem C10_plain_set_witness :
    ((World.armed Nat).slots 1).kind = .plain ∧
    ∃ w1, synchronized_callback.assign (runFn (Env.quiet Nat Unit) 1) 1 none (World.armed Nat)
        = some (.ok (), w1) ∧
      w1.trace = (World.armed Nat).trace ∧ (w1.slots 1).callback = none ∧
      synchronized_callback.toBool 1 w1 = (none : Option FnId).isSome ∧
      ((none : Option FnId) = none →
        synchronized_callback.invoke (runFn (Env.quiet Nat Unit) 1) 1 7 w1
          = some (.ok false, w1)) :=
  ⟨rfl, C10_plain_set (runFn (Env.quiet Nat Unit) 1) 1 none 7 (World.armed Nat) rfl⟩

/-- C14 at the plain slot at address 1 holding callable 9, which throws 13: invoke(7). -/
theorem C14_invoke_propagates_failure_witness :
    (World.failing.slots 1).callback = some 9 ∧
    Throws (runFn Env.sample 1) 9 13 ∧
    ∃ w1, synchronized_callback.invoke (runFn Env.sample 1) 1 7 World.failing
        = some (.error 13, w1) ∧
      w1.trace = World.failing.trace ++ [(9, 7)] ∧
      (w1.slots 1).callback = some 9 ∧
      (w1.slots 1).stored = (World.failing.slots 1).stored ∧
      w1.slots = World.failing.slots :=
  ⟨rfl, runFn_throws _ 0 9 13 (fun _ => rfl),
    C14_invoke_propagates_failure (runFn Env.sample 1) 1 9 13 7 World.failing rfl
      (runFn_throws _ 0 9 13 (fun _ => rfl))⟩

/-- C15 at a fresh replaying slot: invoke(3), set(5), invoke(4), set(empty), invoke(6). -/
theorem C15_callable_excludes_stored_witness :
    ((World.fresh Nat).slots 0).kind = .replaying ∧
    ((World.fresh Nat).slots 0).stored = none ∧
    (∀ f, ReturnsQuietly (runFn (Env.quiet Nat Unit) 1) f) ∧
    ∃ w1, runOps (runFn (Env.quiet Nat Unit) 1) 0
        [.invoke 3, .set (some 5), .invoke 4, .set none, .invoke 6] (World.fresh Nat)
        = some (.ok (), w1) ∧
      ¬ ((w1.slots 0).callback.isSome = true ∧ (w1.slots 0).stored.isSome = true) :=
  ⟨rfl, rfl, fun f => runFn_returnsQuietly _ 0 f (fun _ => rfl),
    C15_callable_excludes_stored (runFn (Env.quiet Nat Unit) 1) 0
      [.invoke 3, .set (some 5), .invoke 4, .set none, .invoke 6] (World.fresh Nat) rfl rfl
      (fun f => runFn_returnsQuietly _ 0 f (fun _ => rfl))⟩

/-- C16 at a replaying slot holding the missed arguments 3: set(9), which throws 13, then
set(5). -/
theorem C16_failed_replay_repeats_witness :
    (World.pending.slots 0).kind = .replaying ∧
    (World.pending.slots 0).stored = some 3 ∧
    Throws (runFn Env.sample 1) 9 13 ∧
    ReturnsQuietly (runFn Env.sample 1) 5 ∧
    ∃ w1 w2, synchronized_callback.assign (runFn Env.sample 1) 0 (some 9) World.pending
        = some (.error 13, w1) ∧
      w1.trace = World.pending.trace ++ [(9, 3)] ∧
      (w1.slots 0).callback = some 9 ∧
      (w1.slots 0).stored = some 3 ∧
      synchronized_callback.assign (runFn Env.sample 1) 0 (some 5) w1 = some (.ok (), w2) ∧
      w2.trace = World.pending.trace ++ [(9, 3), (5, 3)] ∧
      (w2.slots 0).callback = some 5 ∧
      (w2.slots 0).stored = none :=
  ⟨rfl, rfl, runFn_throws _ 0 9 13 (fun _ => rfl), runFn_returnsQuietly _ 0 5 (fun _ => rfl),
    C16_failed_replay_repeats (runFn Env.sample 1) 0 9 5 13 3 World.pending rfl rfl
      (runFn_throws _ 0 9 13 (fun _ => rfl)) (runFn_returnsQuietly _ 0 5 (fun _ => rfl))⟩

/-- C17 for a target never taken by a shared_ptr at bind time and owned when the callable is
called: nothing is dispatched. -/
theorem C17_unowned_target_never_dispatches_witness :
    Ownership.unowned.weak_this 3 = none ∧
    Ownership.owned.weak_this 3 = some 0 ∧
    weak_from_this true 3 Ownership.unowned = none ∧
    weak_bind true Method.sample 3 10 Ownership.unowned 20 ⟨Ownership.owned, 100, []⟩
      = (false, ⟨Ownership.owned, 100, []⟩) ∧
    (weak_bind true Method.sample 3 10 Ownership.unowned 20
      ⟨Ownership.owned, 100, []⟩).2.dispatched = [] :=
  ⟨rfl, rfl,
    C17_unowned_target_never_dispatches true Method.sample 3 10 Ownership.unowned rfl 20
      ⟨Ownership.owned, 100, []⟩⟩

end rtc
